import Mathlib

/-!
Verification of the countdown/task-timer widget (app.js and its sibling
version in part_000) against its natural-language specification.

The embedding models the pure core of the program: time arithmetic on
millisecond timestamps (JS Date.getTime values, modelled as Int),
the task list (a List of Task records), the set of completed task
indices (a Finset of Nat, modelling the JS Set of indices), the alarm
flag state machine driven by updateTimer ticks, and the effect traces
of init and startTimer.
-/

namespace Timer

/-- A task from config.json: name, duration in minutes, display color.
Durations are JS numbers used only in sums and comparisons; they are
modelled as Int. -/
structure Task where
  name : String
  duration : Int
  color : String
deriving DecidableEq

/-- The configuration object parsed from config.json. -/
structure Config where
  targetTime : String
  bufferMinutes : Int
  tasks : List Task
  alarmSound : String

/-- updateTimer and updateBufferMessage both compute
Math.floor((target.getTime() - now.getTime()) / 1000): the millisecond
difference divided by 1000, rounded toward negative infinity.  Int.fdiv
is floor division, which on exact integers is what Math.floor of the
real quotient produces. -/
def remainingSeconds (nowMs targetMs : Int) : Int :=
  Int.fdiv (targetMs - nowMs) 1000

/-- The warning condition computed in updateTimer (part_000 line 289,
isWarning) and updateBufferMessage (app.js line 207, isTimeLacking):
remainingTaskSeconds > remainingSeconds && remainingSeconds > 0. -/
def isWarning (remainingTaskSeconds remSeconds : Int) : Bool :=
  decide (remainingTaskSeconds > remSeconds) && decide (remSeconds > 0)

/-- toggleTask from both files: delete the index if present, add it
otherwise, acting on the completedTasks set. -/
def toggleTask (taskId : ℕ) (completedTasks : Finset ℕ) : Finset ℕ :=
  if taskId ∈ completedTasks then completedTasks.erase taskId
  else insert taskId completedTasks

/-- getRemainingTaskTime from app.js: a reduce over the task list with
index, skipping completed indices, times 60. -/
def getRemainingTaskTime (tasks : List Task) (completedTasks : Finset ℕ) : Int :=
  (tasks.enum.foldl
    (fun total p => if p.1 ∈ completedTasks then total else total + p.2.duration) 0) * 60

/-- getRemainingTaskTime from part_000: a forEach loop accumulating
totalMinutes for indices not in completedTasks, then converted to
seconds. -/
def getRemainingTaskTimeLoop (tasks : List Task) (completedTasks : Finset ℕ) : Int :=
  (tasks.enum.foldl
    (fun totalMinutes p =>
      if p.1 ∉ completedTasks then totalMinutes + p.2.duration else totalMinutes) 0) * 60

/-- getTotalTaskTime from both files: reduce summing all durations,
times 60. -/
def getTotalTaskTime (tasks : List Task) : Int :=
  (tasks.foldl (fun sum task => sum + task.duration) 0) * 60

section FoldHelpers

/-- The reduce in getRemainingTaskTime accumulates the sum of the
durations of the entries whose index is not completed. -/
theorem foldl_skip_completed (completedTasks : Finset ℕ) :
    ∀ (l : List (ℕ × Task)) (acc : Int),
      l.foldl (fun total p => if p.1 ∈ completedTasks then total else total + p.2.duration) acc
        = acc + ((l.filter fun p => decide (p.1 ∉ completedTasks)).map
            (fun p => p.2.duration)).sum := by
  intro l
  induction l with
  | nil => intro acc; simp
  | cons hd tl ih =>
    intro acc
    by_cases h : hd.1 ∈ completedTasks
    · simp [List.filter_cons, h, ih]
    · simp [List.filter_cons, h, ih]
      ring

/-- The forEach loop in part_000 accumulates the same sum. -/
theorem foldl_keep_not_completed (completedTasks : Finset ℕ) :
    ∀ (l : List (ℕ × Task)) (acc : Int),
      l.foldl (fun totalMinutes p =>
          if p.1 ∉ completedTasks then totalMinutes + p.2.duration else totalMinutes) acc
        = acc + ((l.filter fun p => decide (p.1 ∉ completedTasks)).map
            (fun p => p.2.duration)).sum := by
  have hfun : (fun (totalMinutes : Int) (p : ℕ × Task) =>
      if p.1 ∉ completedTasks then totalMinutes + p.2.duration else totalMinutes)
        = fun total p => if p.1 ∈ completedTasks then total else total + p.2.duration := by
    funext total p
    by_cases h : p.1 ∈ completedTasks <;> simp [h]
  intro l acc
  rw [hfun, foldl_skip_completed completedTasks l acc]

/-- The reduce in getTotalTaskTime accumulates the sum of all
durations. -/
theorem foldl_sum_durations :
    ∀ (l : List Task) (acc : Int),
      l.foldl (fun sum task => sum + task.duration) acc
        = acc + (l.map (fun t => t.duration)).sum := by
  intro l
  induction l with
  | nil => intro acc; simp
  | cons hd tl ih =>
    intro acc
    simp [ih]
    ring

/-- Splitting a duration sum by a Boolean predicate on the entries. -/
theorem sum_filter_split (p : ℕ × Task → Bool) :
    ∀ l : List (ℕ × Task),
      ((l.filter p).map (fun q => q.2.duration)).sum
          + ((l.filter fun q => !p q).map (fun q => q.2.duration)).sum
        = (l.map (fun q => q.2.duration)).sum := by
  intro l
  induction l with
  | nil => simp
  | cons hd tl ih =>
    by_cases h : p hd = true
    · simp [List.filter_cons, h]
      omega
    · simp [List.filter_cons, h]
      omega

end FoldHelpers

/-- C1: The warning is active exactly when the remaining task seconds
strictly exceed the remaining seconds until target and the remaining
seconds are strictly positive; in particular no warning is shown once
the countdown has reached zero or below. -/
theorem warning_iff (tasks : List Task) (completedTasks : Finset ℕ) (nowMs targetMs : Int) :
    (isWarning (getRemainingTaskTime tasks completedTasks)
        (remainingSeconds nowMs targetMs) = true ↔
      (remainingSeconds nowMs targetMs < getRemainingTaskTime tasks completedTasks ∧
        0 < remainingSeconds nowMs targetMs)) ∧
    (remainingSeconds nowMs targetMs ≤ 0 →
      isWarning (getRemainingTaskTime tasks completedTasks)
        (remainingSeconds nowMs targetMs) = false) := by
  constructor
  · simp [isWarning]
  · intro h
    simp [isWarning]
    intro h2
    omega

/-- Witness for warning_iff: a single 5-minute task against 100 seconds
of remaining time, and the no-warning clause at an elapsed target. -/
theorem warning_iff_witness :
    (isWarning (getRemainingTaskTime [⟨"x", 5, "c"⟩] ∅) (remainingSeconds 0 100000) = true ↔
      (remainingSeconds 0 100000 < getRemainingTaskTime [⟨"x", 5, "c"⟩] ∅ ∧
        0 < remainingSeconds 0 100000)) ∧
    isWarning (getRemainingTaskTime [⟨"x", 5, "c"⟩] ∅) (remainingSeconds 300000 0) = false :=
  ⟨(warning_iff [⟨"x", 5, "c"⟩] ∅ 0 100000).1,
    (warning_iff [⟨"x", 5, "c"⟩] ∅ 300000 0).2 (by decide)⟩

/-- C2: remainingSeconds is the floor of the millisecond difference
divided by 1000: it is the unique integer r with
1000 * r ≤ target - now < 1000 * (r + 1). -/
theorem remainingSeconds_is_floor (nowMs targetMs : Int) :
    1000 * remainingSeconds nowMs targetMs ≤ targetMs - nowMs ∧
      targetMs - nowMs < 1000 * (remainingSeconds nowMs targetMs + 1) := by
  have hdm := Int.fdiv_add_fmod (targetMs - nowMs) 1000
  have h0 : (0 : Int) ≤ (targetMs - nowMs).fmod 1000 :=
    Int.fmod_nonneg' _ (by norm_num)
  have h1 : (targetMs - nowMs).fmod 1000 < 1000 :=
    Int.fmod_lt_of_pos _ (by norm_num)
  unfold remainingSeconds
  omega

/-- C3: toggleTask flips membership of the index in completedTasks, and
toggling twice restores the original set. -/
theorem toggleTask_flips (i : ℕ) (s : Finset ℕ) :
    (i ∈ toggleTask i s ↔ i ∉ s) ∧ toggleTask i (toggleTask i s) = s := by
  by_cases h : i ∈ s
  · refine ⟨by simp [toggleTask, h], ?_⟩
    have h2 : i ∉ s.erase i := Finset.not_mem_erase i s
    simp [toggleTask, h, h2, Finset.insert_erase h]
  · refine ⟨by simp [toggleTask, h], ?_⟩
    have h2 : i ∈ insert i s := Finset.mem_insert_self i s
    simp [toggleTask, h, h2, Finset.erase_insert h]

/-- C9: the loop-based getRemainingTaskTime of part_000 and the
reduce-based one of app.js agree, and both equal 60 times the sum of
the durations of the tasks whose index is not completed. -/
theorem getRemainingTaskTime_equiv (tasks : List Task) (completedTasks : Finset ℕ) :
    getRemainingTaskTimeLoop tasks completedTasks
        = getRemainingTaskTime tasks completedTasks ∧
      getRemainingTaskTime tasks completedTasks
        = 60 * ((tasks.enum.filter fun p => decide (p.1 ∉ completedTasks)).map
            (fun p => p.2.duration)).sum := by
  unfold getRemainingTaskTime getRemainingTaskTimeLoop
  rw [foldl_skip_completed completedTasks tasks.enum 0,
    foldl_keep_not_completed completedTasks tasks.enum 0]
  constructor
  · rfl
  · ring

/-- Mapping the durations over enum is mapping them over the task list
itself. -/
theorem enum_map_duration (tasks : List Task) :
    (tasks.enum.map fun q => q.2.duration) = tasks.map fun t => t.duration := by
  have h : (fun q : ℕ × Task => q.2.duration)
      = (fun t : Task => t.duration) ∘ Prod.snd := rfl
  rw [h, ← List.map_map, List.enum_map_snd]

/-- C10: remaining task time plus 60 times the completed durations is
the total task time; with non-negative durations the remaining time
never exceeds the total, and with no task completed it equals the
total. -/
theorem remaining_add_completed_eq_total (tasks : List Task) (completedTasks : Finset ℕ) :
    getRemainingTaskTime tasks completedTasks
        + 60 * ((tasks.enum.filter fun p => decide (p.1 ∈ completedTasks)).map
            (fun p => p.2.duration)).sum
      = getTotalTaskTime tasks ∧
    ((∀ t ∈ tasks, 0 ≤ t.duration) →
      getRemainingTaskTime tasks completedTasks ≤ getTotalTaskTime tasks) ∧
    (completedTasks = ∅ →
      getRemainingTaskTime tasks completedTasks = getTotalTaskTime tasks) := by
  have hrem : getRemainingTaskTime tasks completedTasks
      = 60 * ((tasks.enum.filter fun p => decide (p.1 ∉ completedTasks)).map
          (fun p => p.2.duration)).sum := by
    unfold getRemainingTaskTime
    rw [foldl_skip_completed completedTasks tasks.enum 0]
    ring
  have htot : getTotalTaskTime tasks = 60 * (tasks.map fun t => t.duration).sum := by
    unfold getTotalTaskTime
    rw [foldl_sum_durations tasks 0]
    ring
  have hneg : (tasks.enum.filter fun p => decide (p.1 ∉ completedTasks))
      = tasks.enum.filter fun p => !decide (p.1 ∈ completedTasks) := by
    simp only [decide_not]
  have hsplit := sum_filter_split (fun q => decide (q.1 ∈ completedTasks)) tasks.enum
  have hmain : getRemainingTaskTime tasks completedTasks
      + 60 * ((tasks.enum.filter fun p => decide (p.1 ∈ completedTasks)).map
          (fun p => p.2.duration)).sum
      = getTotalTaskTime tasks := by
    rw [hrem, htot, hneg, ← enum_map_duration tasks, ← hsplit]
    ring
  refine ⟨hmain, ?_, ?_⟩
  · intro hpos
    have hin : 0 ≤ ((tasks.enum.filter fun p => decide (p.1 ∈ completedTasks)).map
        (fun p => p.2.duration)).sum := by
      apply List.sum_nonneg
      intro x hx
      obtain ⟨q, hq, rfl⟩ := List.mem_map.mp hx
      exact hpos q.2 (List.snd_mem_of_mem_enum (List.mem_of_mem_filter hq))
    omega
  · intro hempty
    subst hempty
    rw [hrem, htot]
    have hfilter : (tasks.enum.filter fun p => decide (p.1 ∉ (∅ : Finset ℕ)))
        = tasks.enum := by
      simp
    rw [hfilter, enum_map_duration tasks]

/-- Witness for remaining_add_completed_eq_total on a two-task list,
with the first task completed for the sum identity and the bound, and
with nothing completed for the equality clause. -/
theorem remaining_total_witness :
    (getRemainingTaskTime [⟨"a", 10, "red"⟩, ⟨"b", 20, "blue"⟩] {0}
        + 60 * ((([⟨"a", 10, "red"⟩, ⟨"b", 20, "blue"⟩] : List Task).enum.filter
            fun p => decide (p.1 ∈ ({0} : Finset ℕ))).map (fun p => p.2.duration)).sum
      = getTotalTaskTime [⟨"a", 10, "red"⟩, ⟨"b", 20, "blue"⟩]) ∧
    getRemainingTaskTime [⟨"a", 10, "red"⟩, ⟨"b", 20, "blue"⟩] {0}
      ≤ getTotalTaskTime [⟨"a", 10, "red"⟩, ⟨"b", 20, "blue"⟩] ∧
    getRemainingTaskTime [⟨"a", 10, "red"⟩, ⟨"b", 20, "blue"⟩] ∅
      = getTotalTaskTime [⟨"a", 10, "red"⟩, ⟨"b", 20, "blue"⟩] :=
  ⟨(remaining_add_completed_eq_total [⟨"a", 10, "red"⟩, ⟨"b", 20, "blue"⟩] {0}).1,
    (remaining_add_completed_eq_total [⟨"a", 10, "red"⟩, ⟨"b", 20, "blue"⟩] {0}).2.1
      (by decide),
    (remaining_add_completed_eq_total [⟨"a", 10, "red"⟩, ⟨"b", 20, "blue"⟩] ∅).2.2 rfl⟩

/-!
The alarm state machine of updateTimer.  Each tick reads the current
remaining seconds, plays the alarm when the countdown is at or below
zero and the alarmPlayed flag is clear, sets the flag in that case, and
clears the flag again whenever the remaining seconds are positive
(part_000 lines 296-305; app.js lines 299-305 with an else-if, which is
equivalent because the two conditions are mutually exclusive).
-/

/-- One updateTimer tick acting on the alarmPlayed flag: returns
(alarm played on this tick, new alarmPlayed flag). -/
def tickAlarm (alarmPlayed : Bool) (remSeconds : Int) : Bool × Bool :=
  let plays := decide (remSeconds ≤ 0) && !alarmPlayed
  let afterSet := if decide (remSeconds ≤ 0) && !alarmPlayed then true else alarmPlayed
  let afterReset := if remSeconds > 0 then false else afterSet
  (plays, afterReset)

/-- A run of updateTimer ticks over a list of remaining-seconds values,
returning the list of per-tick played flags. -/
def runTicks (alarmPlayed : Bool) : List Int → List Bool
  | [] => []
  | r :: rs => (tickAlarm alarmPlayed r).1 :: runTicks (tickAlarm alarmPlayed r).2 rs

/-- After a tick the alarmPlayed flag records exactly whether the
remaining seconds of that tick were at or below zero. -/
theorem tickAlarm_snd (alarmPlayed : Bool) (r : Int) :
    (tickAlarm alarmPlayed r).2 = decide (r ≤ 0) := by
  unfold tickAlarm
  by_cases h : r ≤ 0
  · have h2 : ¬ r > 0 := by omega
    cases alarmPlayed <;> simp [h, h2]
  · have h2 : r > 0 := by omega
    simp [h, h2]

/-- The played flag of tick k: the remaining seconds at k are at or
below zero, and either k is the first tick of the run with a clear
incoming flag, or the previous tick had positive remaining seconds. -/
theorem runTicks_getD (rems : List Int) :
    ∀ (a : Bool) (k : ℕ), k < rems.length →
      (runTicks a rems).getD k false
        = (decide (rems.getD k 1 ≤ 0)
            && (if k = 0 then !a else decide (0 < rems.getD (k - 1) 1))) := by
  induction rems with
  | nil => intro a k hk; simp at hk
  | cons r rs ih =>
    intro a k hk
    match k with
    | 0 =>
      simp [runTicks, tickAlarm]
    | Nat.succ k2 =>
      have hk2 : k2 < rs.length := by simpa using hk
      have hstep : (runTicks a (r :: rs)).getD (k2 + 1) false
          = (runTicks (tickAlarm a r).2 rs).getD k2 false := by
        simp [runTicks]
      rw [hstep, ih (tickAlarm a r).2 k2 hk2, tickAlarm_snd]
      match k2 with
      | 0 =>
        have hget : (r :: rs).getD 0 1 = r := rfl
        simp [hget]
        by_cases h : r ≤ 0
        · have h2 : ¬ 0 < r := by omega
          simp [h, h2]
        · have h2 : 0 < r := by omega
          simp [h, h2]
      | Nat.succ k3 =>
        simp

/-- C5: along a run of updateTimer ticks started with a clear flag, the
alarm plays on the first tick whose remaining seconds are at or below
zero, and does not play on any later tick unless some tick with
positive remaining seconds occurs strictly in between. -/
theorem alarm_plays_once (rems : List Int) (k : ℕ) (hk : k < rems.length)
    (hle : rems.getD k 1 ≤ 0) (hfirst : ∀ i, i < k → 0 < rems.getD i 1) :
    (runTicks false rems).getD k false = true ∧
      ∀ j, k < j → j < rems.length →
        (∀ i, k < i → i < j → rems.getD i 1 ≤ 0) →
        (runTicks false rems).getD j false = false := by
  constructor
  · rw [runTicks_getD rems false k hk]
    match k, hle, hfirst with
    | 0, hle, _ =>
      rw [if_pos rfl, Bool.not_false, Bool.and_true, decide_eq_true_eq]
      exact hle
    | Nat.succ k2, hle, hfirst =>
      have hprev : 0 < rems.getD k2 1 := hfirst k2 (Nat.lt_succ_self k2)
      rw [if_neg (Nat.succ_ne_zero k2), Bool.and_eq_true, decide_eq_true_eq,
        decide_eq_true_eq]
      exact ⟨hle, by simpa using hprev⟩
  · intro j hkj hj hbetween
    rw [runTicks_getD rems false j hj]
    have hj0 : j ≠ 0 := by omega
    have hprevle : rems.getD (j - 1) 1 ≤ 0 := by
      by_cases h : j - 1 = k
      · rw [h]; exact hle
      · exact hbetween (j - 1) (by omega) (by omega)
    have hdec : decide (0 < rems.getD (j - 1) 1) = false := by
      rw [decide_eq_false_iff_not]
      omega
    rw [if_neg hj0, hdec, Bool.and_false]

/-- Witness for alarm_plays_once at the concrete run
[5, -1, -2, 3, -4] with k = 1. -/
theorem alarm_plays_once_witness :
    (runTicks false [5, -1, -2, 3, -4]).getD 1 false = true ∧
      ∀ j, 1 < j → j < ([5, -1, -2, 3, -4] : List Int).length →
        (∀ i, 1 < i → i < j → ([5, -1, -2, 3, -4] : List Int).getD i 1 ≤ 0) →
        (runTicks false [5, -1, -2, 3, -4]).getD j false = false :=
  alarm_plays_once [5, -1, -2, 3, -4] 1 (by decide) (by decide)
    (by
      intro i hi
      have h0 : i = 0 := by omega
      subst h0
      decide)

/-- Milliseconds in one day. -/
def msPerDay : Int := 86400000

/-- getTargetDate from both files, modelled on millisecond timestamps.
dayStartMs is the timestamp of local midnight of the current day and
msOfDay the milliseconds elapsed since that midnight, so the current
time is dayStartMs + msOfDay.  target.setHours(hours, minutes, 0, 0)
on a Date holding the current day yields
dayStartMs + (hours * 60 + minutes) * 60000; if that candidate is less
than or equal to the current time, setDate(getDate() + 1) adds one
day. -/
def getTargetDate (dayStartMs msOfDay hours minutes : Int) : Int :=
  if dayStartMs + (hours * 60 + minutes) * 60000 ≤ dayStartMs + msOfDay then
    dayStartMs + (hours * 60 + minutes) * 60000 + msPerDay
  else
    dayStartMs + (hours * 60 + minutes) * 60000

/-- C8: with valid parsed hours and minutes, getTargetDate is strictly
later than the current time, and the remaining seconds computed from it
are never negative. -/
theorem getTargetDate_future (dayStartMs msOfDay hours minutes : Int)
    (hms0 : 0 ≤ msOfDay) (hms1 : msOfDay < msPerDay)
    (hh0 : 0 ≤ hours) (hh1 : hours ≤ 23) (hm0 : 0 ≤ minutes) (hm1 : minutes ≤ 59) :
    dayStartMs + msOfDay < getTargetDate dayStartMs msOfDay hours minutes ∧
      0 ≤ remainingSeconds (dayStartMs + msOfDay)
          (getTargetDate dayStartMs msOfDay hours minutes) := by
  unfold msPerDay at hms1
  have hlt : dayStartMs + msOfDay < getTargetDate dayStartMs msOfDay hours minutes := by
    unfold getTargetDate msPerDay
    split <;> omega
  refine ⟨hlt, ?_⟩
  unfold remainingSeconds
  exact Int.fdiv_nonneg (by omega) (by norm_num)

/-- Witness for getTargetDate_future: midnight now, target 01:00. -/
theorem getTargetDate_future_witness :
    (0 : Int) + 0 < getTargetDate 0 0 1 0 ∧
      0 ≤ remainingSeconds ((0 : Int) + 0) (getTargetDate 0 0 1 0) :=
  getTargetDate_future 0 0 1 0 (by decide) (by decide) (by decide) (by decide)
    (by decide) (by decide)

/-- The mutable module state touched by init: the parsed config, the
task list copied from it, the completed set, whether the periodic timer
was started, and whether the task bar was rendered. -/
structure AppState where
  config : Option Config
  tasks : List Task
  completedTasks : Finset ℕ
  timerRunning : Bool
  rendered : Bool

/-- The state before init runs: config = null, tasks = [], an empty
completed set, no interval registered, nothing rendered. -/
def initialState : AppState :=
  { config := none, tasks := [], completedTasks := ∅,
    timerRunning := false, rendered := false }

/-- The URL-parameter override applied inside init when a valid time
parameter is present. -/
def applyUrlTime (c : Config) : Option String → Config
  | some t => { c with targetTime := t }
  | none => c

/-- init, modelled over the outcome of fetching and parsing
config.json.  Except.error covers a rejected fetch or a body that is
not JSON; Except.ok none covers a parsed value that is null (or
otherwise falsy), which init turns into a thrown and caught error after
having assigned config; Except.ok (some c) is a successful load, after
which init copies the tasks, renders, and starts the timer. -/
def init (fetchResult : Except String (Option Config)) (urlTime : Option String)
    (s : AppState) : AppState :=
  match fetchResult with
  | .error _ => s
  | .ok none => { s with config := none }
  | .ok (some c) =>
      { s with config := some (applyUrlTime c urlTime),
               tasks := (applyUrlTime c urlTime).tasks,
               rendered := true, timerRunning := true }

/-- C6: when the fetch rejects, the body fails to parse, or the parsed
value is null, init leaves the program stopped: config stays null,
tasks stays empty, nothing is rendered, and the periodic timer is never
started. -/
theorem init_failure_stops (fetchResult : Except String (Option Config))
    (urlTime : Option String) (hfail : ∀ c, fetchResult ≠ .ok (some c)) :
    (init fetchResult urlTime initialState).config = none ∧
    (init fetchResult urlTime initialState).tasks = [] ∧
    (init fetchResult urlTime initialState).rendered = false ∧
    (init fetchResult urlTime initialState).timerRunning = false := by
  cases fetchResult with
  | error e => exact ⟨rfl, rfl, rfl, rfl⟩
  | ok oc =>
    cases oc with
    | none => exact ⟨rfl, rfl, rfl, rfl⟩
    | some c => exact absurd rfl (hfail c)

/-- Witness for init_failure_stops at a rejected fetch. -/
theorem init_failure_stops_witness :
    (init (Except.error "network failure") none initialState).config = none ∧
    (init (Except.error "network failure") none initialState).tasks = [] ∧
    (init (Except.error "network failure") none initialState).rendered = false ∧
    (init (Except.error "network failure") none initialState).timerRunning = false :=
  init_failure_stops (Except.error "network failure") none
    (fun _ h => Except.noConfusion h)

/-- The observable effects the program can schedule. -/
inductive Effect where
  | updateCall : Effect
  | renderEff : Effect
  | progressEff : Effect
  | intervalEff (periodMs : ℕ) : Effect
  | alertEff : Effect
deriving DecidableEq

/-- startTimer: one immediate updateTimer call followed by a single
setInterval(updateTimer, 1000) registration. -/
def startTimerEffects : List Effect :=
  [Effect.updateCall, Effect.intervalEff 1000]

/-- The effect trace of init: on success renderTasks then startTimer,
on any failure only the alert in the catch block.  init is the only
entry point of the program that reaches startTimer. -/
def initEffects (fetchResult : Except String (Option Config)) : List Effect :=
  match fetchResult with
  | .ok (some _) => Effect.renderEff :: startTimerEffects
  | _ => [Effect.alertEff]

/-- The effect trace of the toggleTask click handler: renderTasks and
updateProgress only. -/
def toggleTaskEffects : List Effect :=
  [Effect.renderEff, Effect.progressEff]

/-- Recognizes a periodic-callback registration. -/
def isIntervalEff : Effect → Bool
  | .intervalEff _ => true
  | _ => false

/-- C7: startTimer performs one immediate updateTimer call and
registers exactly one periodic callback, with period 1000 ms; the init
entry point registers at most that one interval, and the toggleTask
handler registers none. -/
theorem startTimer_single_interval :
    startTimerEffects.filter isIntervalEff = [Effect.intervalEff 1000] ∧
    startTimerEffects.head? = some Effect.updateCall ∧
    startTimerEffects.length = 2 ∧
    (∀ fetchResult : Except String (Option Config),
      ((initEffects fetchResult).filter isIntervalEff).length ≤ 1) ∧
    toggleTaskEffects.filter isIntervalEff = [] := by
  refine ⟨rfl, rfl, rfl, ?_, rfl⟩
  intro fetchResult
  match fetchResult with
  | .ok (some c) => simp [initEffects, startTimerEffects, isIntervalEff]
  | .ok none => simp [initEffects, isIntervalEff]
  | .error e => simp [initEffects, isIntervalEff]

/-- A rendered segment of the task bar: the index of the task it came
from, its flex-grow factor, its completed marking, and its color. -/
structure Segment where
  idx : ℕ
  flexGrow : Int
  completed : Bool
  color : String
deriving DecidableEq

/-- The order produced by the sort comparator in renderTasks: completed
entries first, uncompleted after, each group in original index order.
The comparator returns -1 when only the left entry is completed, 1 when
only the right one is, and compares indices otherwise, and the indices
of enum are already increasing, so this is the resulting order of the
stable JS sort. -/
def sortedTaskIndices (tasks : List Task) (completedTasks : Finset ℕ) : List (ℕ × Task) :=
  (tasks.enum.filter fun p => decide (p.1 ∈ completedTasks))
    ++ (tasks.enum.filter fun p => decide (p.1 ∉ completedTasks))

/-- renderTasks: one segment per task in sorted order, with flex-grow
factor equal to the task duration in minutes (app.js sets style.flex
with the duration as the grow factor, part_000 sets style.flexGrow to
the duration directly). -/
def renderTasks (tasks : List Task) (completedTasks : Finset ℕ) : List Segment :=
  (sortedTaskIndices tasks completedTasks).map fun p =>
    { idx := p.1, flexGrow := p.2.duration,
      completed := decide (p.1 ∈ completedTasks), color := p.2.color }

/-- C4: every segment produced by renderTasks carries a flex-grow
factor equal to the duration of the task it renders, and hence for any
two segments the cross products of growth factors and durations agree:
segment widths are proportioned by duration. -/
theorem renderTasks_flexGrow_prop (tasks : List Task) (completedTasks : Finset ℕ) :
    (∀ s ∈ renderTasks tasks completedTasks,
      ∃ t, tasks[s.idx]? = some t ∧ s.flexGrow = t.duration) ∧
    (∀ s1 ∈ renderTasks tasks completedTasks,
      ∀ s2 ∈ renderTasks tasks completedTasks,
      ∀ t1 t2 : Task, tasks[s1.idx]? = some t1 → tasks[s2.idx]? = some t2 →
        s1.flexGrow * t2.duration = s2.flexGrow * t1.duration) := by
  have hmem : ∀ s ∈ renderTasks tasks completedTasks,
      ∃ t, tasks[s.idx]? = some t ∧ s.flexGrow = t.duration := by
    intro s hs
    obtain ⟨p, hp, rfl⟩ := List.mem_map.mp hs
    have hpe : p ∈ tasks.enum := by
      rcases List.mem_append.mp hp with h | h
      · exact List.mem_of_mem_filter h
      · exact List.mem_of_mem_filter h
    exact ⟨p.2, List.mem_enum_iff_getElem?.mp hpe, rfl⟩
  refine ⟨hmem, ?_⟩
  intro s1 hs1 s2 hs2 t1 t2 h1 h2
  obtain ⟨u1, hu1, hf1⟩ := hmem s1 hs1
  obtain ⟨u2, hu2, hf2⟩ := hmem s2 hs2
  rw [hu1] at h1
  rw [hu2] at h2
  rw [hf1, hf2, Option.some.inj h1, Option.some.inj h2, mul_comm]

/-- Witness for renderTasks_flexGrow_prop on a two-task list with the
second task completed. -/
theorem renderTasks_flexGrow_witness :
    (∃ t, ([⟨"a", 10, "red"⟩, ⟨"b", 20, "blue"⟩] : List Task)[
        (⟨1, 20, true, "blue"⟩ : Segment).idx]? = some t ∧
      (⟨1, 20, true, "blue"⟩ : Segment).flexGrow = t.duration) ∧
    (⟨1, 20, true, "blue"⟩ : Segment).flexGrow * (⟨"a", 10, "red"⟩ : Task).duration
      = (⟨0, 10, false, "red"⟩ : Segment).flexGrow * (⟨"b", 20, "blue"⟩ : Task).duration := by
  have h := renderTasks_flexGrow_prop [⟨"a", 10, "red"⟩, ⟨"b", 20, "blue"⟩] {1}
  exact ⟨h.1 ⟨1, 20, true, "blue"⟩ (by decide),
    h.2 ⟨1, 20, true, "blue"⟩ (by decide) ⟨0, 10, false, "red"⟩ (by decide)
      ⟨"b", 20, "blue"⟩ ⟨"a", 10, "red"⟩ (by decide) (by decide)⟩

end Timer
